import Mathlib

/-!
Shallow embedding of pkg/downloader/downloader.go (mzky/weblink_bak).

Embedded here: the configuration record (source struct `Option`, renamed
`Opt` because the source name collides with core Lean's `Option`), the
`Job` record, `cloneOption`, `NewJob`, the range planner (`AvaiableTreads`
together with the chunk loop of `multiThreadDownload`), the chunk worker
retry loop of `multiThreadDownload`, `downloadChunk`'s write section,
`fetchInfo`'s status handling, and `createTargetFile`'s collision
resolution.

Go `uint64` arithmetic is modelled as `Nat` with explicit reduction
mod `2 ^ 64` at every operation where wraparound can occur.  Go `int`
is modelled as `Int` (the values reached here stay far below `2 ^ 63`).
External effects (HTTP responses, the save-file dialog, `os.Stat`) are
passed in as explicit data.
-/

namespace Weblink

/-- Modulus of Go `uint64` arithmetic. -/
def U64 : Nat := 2 ^ 64

/-- `int(math.Ceil(float64(a) / float64(b)))` for `b > 0`, modelled as exact
ceiling division on `Nat` (the float detour is exact for the magnitudes the
planner's correctness claims quantify over). -/
def ceilDiv (a b : Nat) : Nat := (a + b - 1) / b

/-- Source struct `Option` (downloader.go:48-57), renamed to avoid the core
`Option` type.  `FileNamePfx` is the source field `FileNamePrefix`;
`Cookies` entries are opaque, modelled as `Nat` tokens;
`Timeout` is the `time.Duration` in nanoseconds. -/
structure Opt where
  Dir : String
  FileNamePfx : String
  MaxThreads : Int
  MinChunkSize : Nat
  EnableSaveFileDialog : Bool
  Overwrite : Bool
  Timeout : Nat
  Cookies : List Nat
deriving Repr, DecidableEq

/-- `Option.cloneOption` (downloader.go:61-71).  The source copies the seven
listed fields and omits `Cookies`, whose Go zero value is the nil slice. -/
def cloneOption (opt : Opt) : Opt :=
  { Dir := opt.Dir
    FileNamePfx := opt.FileNamePfx
    MaxThreads := opt.MaxThreads
    MinChunkSize := opt.MinChunkSize
    EnableSaveFileDialog := opt.EnableSaveFileDialog
    Overwrite := opt.Overwrite
    Timeout := opt.Timeout
    Cookies := [] }

/-- Source struct `Job` (downloader.go:34-46).  The `*netUrl.URL` field is
represented by the only component the embedded logic consults, the scheme;
`_lck : Option Unit` models the `*sync.Mutex` pointer, `none` being nil. -/
structure Job where
  opt : Opt
  id : Nat
  urlScheme : String
  FileName : String
  FileSize : Nat
  isSupportRange : Bool
  isFtp : Bool
  _lck : Option Unit
deriving Repr, DecidableEq

/-- `Downloader.NewJob` (downloader.go:121-151): clone the downloader's
option, apply the per-call overrides, and build the job literal.  The job
literal in the source never mentions `_lck`, so the field keeps the Go zero
value nil; the default `afterCreateJobInterceptor` is the empty function
(downloader.go:101) and `_lck` is unexported, so no caller outside the
package can assign it either. -/
def NewJob (dOpt : Opt) (withOption : List (Opt → Opt)) (urlScheme : String)
    (lastJobId : Nat) : Job :=
  let opt := withOption.foldl (fun o set => set o) (cloneOption dOpt)
  { opt := opt
    id := lastJobId + 1
    urlScheme := urlScheme
    FileName := ""
    FileSize := 0
    isSupportRange := false
    isFtp := urlScheme == "ftp"
    _lck := none }

/-- `Job.AvaiableTreads` (downloader.go:205-232). -/
def AvaiableTreads (job : Job) : Int :=
  if !job.isSupportRange then 1
  else if job.FileSize < job.opt.MinChunkSize then 1
  else if job.opt.MinChunkSize ≤ 0 then 1
  else
    let threads : Int := ((ceilDiv job.FileSize job.opt.MinChunkSize : Nat) : Int)
    if threads > job.opt.MaxThreads then job.opt.MaxThreads
    else if threads < 1 then 1
    else threads

/-- The chunk loop of `multiThreadDownload` (downloader.go:363-374): the
list of `(start, end)` byte ranges handed to the workers, in worker order.
`chunkSize := uint64(math.Ceil(float64(job.FileSize) / float64(theads)))`;
`start := uint64(i) * chunkSize`; `end := start + chunkSize - 1`,
overwritten with `job.FileSize - 1` for the last worker.  All three
expressions are `uint64` arithmetic, hence the `% U64` reductions. -/
def multiThreadRanges (fileSize : Nat) (theads : Nat) : List (Nat × Nat) :=
  let chunkSize := ceilDiv fileSize theads
  (List.range theads).map (fun i =>
    let start := (i * chunkSize) % U64
    let e := (start + chunkSize + (U64 - 1)) % U64
    if i = theads - 1 then (start, (fileSize + (U64 - 1)) % U64) else (start, e))

/-- A `Job` as it stands when the planner runs: only `FileSize`,
`MinChunkSize`, `MaxThreads` and `isSupportRange` are consulted by
`AvaiableTreads` and the chunk loop. -/
def planJob (fileSize minChunk : Nat) (maxThreads : Int) (supportRange : Bool) : Job :=
  { opt := { Dir := ""
             FileNamePfx := ""
             MaxThreads := maxThreads
             MinChunkSize := minChunk
             EnableSaveFileDialog := false
             Overwrite := false
             Timeout := 0
             Cookies := [] }
    id := 0
    urlScheme := "http"
    FileName := ""
    FileSize := fileSize
    isSupportRange := supportRange
    isFtp := false
    _lck := none }

/-- The claim's contiguity property: each range starts one byte after the
previous range ends. -/
def RangesContiguous (rs : List (Nat × Nat)) : Prop :=
  rs.Chain' (fun r s => s.1 = r.2 + 1)

/-- The claim's non-overlap property: any two distinct ranges are disjoint
as closed intervals. -/
def RangesDisjoint (rs : List (Nat × Nat)) : Prop :=
  rs.Pairwise (fun r s => r.2 < s.1 ∨ s.2 < r.1)

/-- The claim's exact-cover property: a byte offset lies in some range
exactly when it lies in the file extent. -/
def RangesCover (totalSize : Nat) (rs : List (Nat × Nat)) : Prop :=
  ∀ b : Nat, (∃ r ∈ rs, r.1 ≤ b ∧ b ≤ r.2) ↔ b < totalSize

/-- Result of one `downloadChunk` call, as the source distinguishes its
exits (downloader.go:420-454). -/
inductive ChunkRes where
  | ok : ChunkRes
  | err : Nat → ChunkRes
deriving Repr, DecidableEq

/-- Terminal state of one worker goroutine of `multiThreadDownload`
(downloader.go:377-407).  The `Nat` argument counts the `downloadChunk`
calls the worker has made when it returns; `permFail` also carries the
error value recorded in `errs`. -/
inductive WorkerOutcome where
  | cancelled : Nat → WorkerOutcome
  | success : Nat → WorkerOutcome
  | permFail : Nat → Nat → WorkerOutcome
deriving Repr, DecidableEq

/-- The worker retry loop of `multiThreadDownload` (downloader.go:380-406).
`cancelObs retry` is whether the `ctx.Done()` select case is ready when the
iteration with counter value `retry` runs its `select`; `res retry` is the
result of the `downloadChunk` call made in that iteration.  The source
increments `retry` exactly once per iteration that neither returns nor
cancels, so the loop counter doubles as the iteration index. -/
def workerLoop (cancelObs : Nat → Bool) (res : Nat → ChunkRes) (retry : Nat) :
    WorkerOutcome :=
  if cancelObs retry then .cancelled retry
  else
    match res retry with
    | .ok => .success (retry + 1)
    | .err e => if h : 3 ≤ retry then .permFail e (retry + 1)
                else workerLoop cancelObs res (retry + 1)
termination_by 4 - retry
decreasing_by omega

/-- Number of `downloadChunk` attempts a finished worker consumed. -/
def WorkerOutcome.attempts : WorkerOutcome → Nat
  | .cancelled n => n
  | .success n => n
  | .permFail _ n => n

/-- The errors the worker appends to the shared `errs` slice
(downloader.go:397-399): only the `retry >= 3` branch appends. -/
def WorkerOutcome.recordedErrs : WorkerOutcome → List Nat
  | .permFail e _ => [e]
  | _ => []

/-- Whether the worker calls `cancel()` (downloader.go:400): only the
`retry >= 3` branch does. -/
def WorkerOutcome.tripsCancel : WorkerOutcome → Bool
  | .permFail _ _ => true
  | _ => false

/-- The error `multiThreadDownload` returns after the join barrier
(downloader.go:412-416): the head of `errs` when non-empty, nil otherwise. -/
def surfacedErr (errs : List Nat) : Option Nat := errs.head?

/-- Exit taken by a `downloadChunk` call (downloader.go:420-454), in source
order: request construction, transport, the 206 check, then the write
section guarded by `job._lck`.  Calling `Lock` on a nil `*sync.Mutex`
dereferences the nil pointer and panics, which `panicNilMutex` records. -/
inductive ChunkStep where
  | reqErr : ChunkStep
  | respErr : ChunkStep
  | rangeNotHonored : ChunkStep
  | panicNilMutex : ChunkStep
  | seekErr : ChunkStep
  | writeErr : ChunkStep
  | written : ChunkStep
deriving Repr, DecidableEq

/-- Outcomes of the external calls a single `downloadChunk` makes. -/
structure ChunkEnv where
  reqOk : Bool
  respOk : Bool
  status : Nat
  seekOk : Bool
  writeOk : Bool
deriving Repr, DecidableEq

/-- `Job.downloadChunk` (downloader.go:420-454) as the exit it takes. -/
def downloadChunk (job : Job) (env : ChunkEnv) : ChunkStep :=
  if !env.reqOk then .reqErr
  else if !env.respOk then .respErr
  else if env.status ≠ 206 then .rangeNotHonored
  else
    match job._lck with
    | none => .panicNilMutex
    | some _ =>
      if !env.seekOk then .seekErr
      else if !env.writeOk then .writeErr
      else .written

/-- The three error exits of `fetchInfo` (downloader.go:473-483):
404, 401, and any other status above 299. -/
inductive FetchErr where
  | notFound : FetchErr
  | unauthorized : FetchErr
  | connectErr : FetchErr
deriving Repr, DecidableEq

/-- The HEAD response consulted by `fetchInfo`.  `contentLength` is the
result of `strconv.ParseUint(r.Header.Get "Content-Length", 10, 64)`:
`none` when the header is absent (`Get` returns the empty string, which
does not parse) or unparsable.  `suggestedName` is the value
`getFileNameByResponse` would produce. -/
structure HeadResp where
  StatusCode : Nat
  acceptRanges : String
  contentLength : Option Nat
  suggestedName : String
deriving Repr, DecidableEq

/-- `Job.fetchInfo` (downloader.go:456-506), for a HEAD request that got a
response (transport errors excluded; they abort identically and earlier). -/
def fetchInfo (job : Job) (r : HeadResp) : Except FetchErr Job :=
  if r.StatusCode = 404 then .error .notFound
  else if r.StatusCode = 401 then .error .unauthorized
  else if 299 < r.StatusCode then .error .connectErr
  else
    let job1 := if r.acceptRanges == "bytes" then { job with isSupportRange := true }
                else job
    match r.contentLength with
    | none => .ok { job1 with isSupportRange := false, FileSize := 0 }
    | some len =>
      let job2 := { job1 with FileSize := len }
      .ok (if !job2.opt.EnableSaveFileDialog then { job2 with FileName := r.suggestedName }
           else job2)

/-- How far `downloadHttp` (downloader.go:312-342) gets. `fetch` carries the
job state handed to `multiThreadDownload`; `createTargetFile` (and hence
the destination file) is only ever reached inside `multiThreadDownload`. -/
inductive HttpOutcome where
  | probeErr : FetchErr → HttpOutcome
  | userCancelled : HttpOutcome
  | badFileName : HttpOutcome
  | fetch : Job → HttpOutcome
deriving Repr, DecidableEq

/-- `Job.downloadHttp` (downloader.go:312-342) up to the point where it
either returns or enters `multiThreadDownload`.  `dialogResult` is the
outcome of `openSaveFileDialog`: `some (dir, file)` for an accepted dialog
with the chosen path already split, `none` for a declined one. -/
def downloadHttp (job : Job) (r : HeadResp) (dialogResult : Option (String × String)) :
    HttpOutcome :=
  match fetchInfo job r with
  | .error e => .probeErr e
  | .ok j0 =>
    let chosen : Option Job :=
      if j0.opt.EnableSaveFileDialog then
        match dialogResult with
        | some df => some { j0 with FileName := df.2, opt := { j0.opt with Dir := df.1 } }
        | none => none
      else some j0
    match chosen with
    | none => .userCancelled
    | some j1 =>
      if j1.FileName = "" ∨ ¬(j1.FileName.contains '.') then .badFileName
      else .fetch j1

/-- Whether the run of `downloadHttp` creates the destination file:
`createTargetFile` runs only inside `multiThreadDownload`. -/
def fileCreatedIn : HttpOutcome → Bool
  | .fetch _ => true
  | _ => false

/-- Number of worker goroutines the run of `downloadHttp` launches. -/
def workersStartedIn : HttpOutcome → Nat
  | .fetch j => (AvaiableTreads j).toNat
  | _ => 0

/-- `filepath.Ext` for the names at issue: the suffix starting at the final
dot, the empty string when there is none (list-of-characters worker). -/
def extAux : List Char → List Char
  | [] => []
  | c :: rest =>
    match extAux rest with
    | [] => if c = '.' then c :: rest else []
    | e => e

/-- `filepath.Ext` on strings. -/
def fileExt (s : String) : String := String.mk (extAux s.toList)

/-- `filepath.Join(dir, name)` for the fixed directory of the collision
loop; separator normalization is irrelevant to the claims. -/
def pathJoin (dir name : String) : String := dir ++ "/" ++ name

/-- `fmt.Sprintf("%s(%d)%s", baseWithoutExt, index, ext)`
(downloader.go:187). -/
def indexedName (baseWithoutExt ext : String) (index : Nat) : String :=
  baseWithoutExt ++ "(" ++ toString index ++ ")" ++ ext

/-- The collision name the source derives from prefix and file name:
`base := FileNamePrefix + FileName`, `ext := filepath.Ext(base)`,
`baseWithoutExt := base[:len(base)-len(ext)]` (downloader.go:181-183). -/
def collisionBase (pfx fileName : String) (index : Nat) : String :=
  let base := pfx ++ fileName
  let ext := fileExt base
  indexedName (base.take (base.length - ext.length)) ext index

/-- The retry loop of `createTargetFile` (downloader.go:185-201).  `taken`
models `os.Stat` existence; `fuel` bounds the source's unbounded `for`
(the source diverges when every index is taken, so the model returns
`none` on fuel exhaustion). -/
def createLoop (taken : String → Bool) (dir baseWithoutExt ext : String)
    (index : Nat) : Nat → Option String
  | 0 => none
  | fuel + 1 =>
    let newBase := indexedName baseWithoutExt ext index
    let newPath := pathJoin dir newBase
    if taken newPath then createLoop taken dir baseWithoutExt ext (index + 1) fuel
    else some newBase

/-- `Job.createTargetFile` (downloader.go:166-203), returning the on-disk
base name (prefix included) of the file it creates, for a relative
`FileName` (the `filepath.IsAbs` branch of `TargetFile` is not taken). -/
def createTargetFileName (taken : String → Bool) (overwrite : Bool)
    (dir pfx fileName : String) (fuel : Nat) : Option String :=
  if overwrite then some (pfx ++ fileName)
  else
    let original := pathJoin dir (pfx ++ fileName)
    if !taken original then some (pfx ++ fileName)
    else
      let base := pfx ++ fileName
      let ext := fileExt base
      createLoop taken dir (base.take (base.length - ext.length)) ext 1 fuel

/-- `Job.Download` (downloader.go:234-245): one `select` between a freshly
started `time.After(job.Timeout)` and an immediately-ready `default` case.
`timerFired` is whether the timer channel was already readable at that
single evaluation instant; the `default` branch runs the actual download
and the timer is never consulted again. -/
inductive DownloadOutcome where
  | timeoutErr : DownloadOutcome
  | proceeded : DownloadOutcome
deriving Repr, DecidableEq

/-- The timeout gate of `Job.Download`. -/
def downloadSelect (timerFired : Bool) : DownloadOutcome :=
  if timerFired then .timeoutErr else .proceeded

/-- Replace the `Timeout` of a job's configuration. -/
def setTimeout (job : Job) (t : Nat) : Job :=
  { job with opt := { job.opt with Timeout := t } }

/-- The whole fetch phase of one job, as observed worker outcomes:
worker `i` runs the retry loop against its own cancellation observations
and chunk results (downloader.go:366-410). -/
def multiThreadOutcome (job : Job) (cancelObs : Nat → Nat → Bool)
    (res : Nat → Nat → ChunkRes) : List WorkerOutcome :=
  (List.range (AvaiableTreads job).toNat).map (fun i =>
    workerLoop (cancelObs i) (res i) 0)

/-- The defaults `New` installs (downloader.go:81-89); `Dir` is the working
directory, irrelevant to every claim, modelled as the empty string. -/
def newDefaultOption : Opt :=
  { Dir := ""
    FileNamePfx := ""
    MaxThreads := 4
    MinChunkSize := 500 * 1024
    EnableSaveFileDialog := true
    Overwrite := false
    Timeout := 10 * 1000000000
    Cookies := [] }

/-- C2: every `Job` built by `NewJob` leaves `_lck` nil, and any
`downloadChunk` call on such a job that reaches the write section — the
request succeeded, a response arrived, and its status is 206 — dereferences
the nil mutex, so the seek-then-write section is unreachable without a
panic. -/
theorem c2_newjob_nil_mutex (dOpt : Opt) (ov : List (Opt → Opt)) (scheme : String)
    (lastId : Nat) (env : ChunkEnv)
    (hreq : env.reqOk = true) (hresp : env.respOk = true) (hst : env.status = 206) :
    (NewJob dOpt ov scheme lastId)._lck = none
    ∧ downloadChunk (NewJob dOpt ov scheme lastId) env = .panicNilMutex := by
  refine ⟨rfl, ?_⟩
  simp [downloadChunk, NewJob, hreq, hresp, hst]

/-- Witness for C2 at the factory defaults and a plain 206 environment. -/
theorem c2_newjob_nil_mutex_witness :
    (NewJob newDefaultOption [] "http" 0)._lck = none
    ∧ downloadChunk (NewJob newDefaultOption [] "http" 0)
        { reqOk := true, respOk := true, status := 206, seekOk := true, writeOk := true }
        = .panicNilMutex :=
  c2_newjob_nil_mutex newDefaultOption [] "http" 0
    { reqOk := true, respOk := true, status := 206, seekOk := true, writeOk := true }
    rfl rfl rfl

/-- C5 counterexample: the configuration snapshot is not complete.
`cloneOption` omits `Cookies`, so a downloader whose default option holds a
cookie produces a job whose captured configuration does not hold it: the
claim that every configuration field is captured by value fails at this
input. -/
theorem c5_cookies_not_captured :
    ({ newDefaultOption with Cookies := [7] } : Opt).Cookies = [7]
    ∧ (NewJob { newDefaultOption with Cookies := [7] } [] "http" 0).opt.Cookies ≠ [7] := by
  exact ⟨rfl, by decide⟩

/-- C5 amended: every `Option` field except `Cookies` is captured by value
at job creation — so later mutation of the downloader's defaults leaves
those fields of an existing job unchanged — while `Cookies` is not
captured: `cloneOption` always resets it to the nil slice. -/
theorem c5_snapshot_without_cookies (opt : Opt) :
    (cloneOption opt).Dir = opt.Dir
    ∧ (cloneOption opt).FileNamePfx = opt.FileNamePfx
    ∧ (cloneOption opt).MaxThreads = opt.MaxThreads
    ∧ (cloneOption opt).MinChunkSize = opt.MinChunkSize
    ∧ (cloneOption opt).EnableSaveFileDialog = opt.EnableSaveFileDialog
    ∧ (cloneOption opt).Overwrite = opt.Overwrite
    ∧ (cloneOption opt).Timeout = opt.Timeout
    ∧ (cloneOption opt).Cookies = [] :=
  ⟨rfl, rfl, rfl, rfl, rfl, rfl, rfl, rfl⟩

/-- C6: when the resource does not support ranges, or the size is below the
minimum chunk size, or the minimum chunk size is zero, the planner returns
one worker and the chunk loop emits exactly the single range
`[0, FileSize - 1]` (the end computed in uint64 arithmetic; for a
non-empty file it is the mathematical `FileSize - 1`). -/
theorem c6_single_worker (job : Job)
    (h : job.isSupportRange = false ∨ job.FileSize < job.opt.MinChunkSize
          ∨ job.opt.MinChunkSize = 0)
    (hU : job.FileSize < U64) :
    AvaiableTreads job = 1
    ∧ multiThreadRanges job.FileSize (AvaiableTreads job).toNat
        = [(0, (job.FileSize + (U64 - 1)) % U64)]
    ∧ (1 ≤ job.FileSize → (job.FileSize + (U64 - 1)) % U64 = job.FileSize - 1) := by
  have ht : AvaiableTreads job = 1 := by
    unfold AvaiableTreads
    rcases h with h | h | h
    · simp [h]
    · simp [h]
    · simp [h]
  refine ⟨ht, ?_, ?_⟩
  · rw [ht]
    simp [multiThreadRanges, List.range_succ]
  · intro hn
    have hrw : job.FileSize + (U64 - 1) = (job.FileSize - 1) + U64 := by
      have : 0 < U64 := by decide
      omega
    rw [hrw, Nat.add_mod_right, Nat.mod_eq_of_lt]
    omega

/-- Witness for C6: a range-incapable resource of 10 bytes. -/
theorem c6_single_worker_witness :
    AvaiableTreads (planJob 10 500000 4 false) = 1
    ∧ multiThreadRanges (planJob 10 500000 4 false).FileSize
        (AvaiableTreads (planJob 10 500000 4 false)).toNat
        = [(0, ((planJob 10 500000 4 false).FileSize + (U64 - 1)) % U64)]
    ∧ (1 ≤ (planJob 10 500000 4 false).FileSize →
        ((planJob 10 500000 4 false).FileSize + (U64 - 1)) % U64
          = (planJob 10 500000 4 false).FileSize - 1) :=
  c6_single_worker (planJob 10 500000 4 false) (Or.inl rfl) (by decide)

/-- C7: `fetchInfo` maps a 404 to the not-found error, a 401 to the
unauthorized error, and any other status above 299 to the generic
connection error; and whenever the probe fails, `downloadHttp` returns that
error before the save dialog, before `createTargetFile` (so no destination
file is created) and before any worker is launched. -/
theorem c7_probe_failure (job : Job) (r : HeadResp) (d : Option (String × String)) :
    (r.StatusCode = 404 → downloadHttp job r d = .probeErr .notFound)
    ∧ (r.StatusCode = 401 → downloadHttp job r d = .probeErr .unauthorized)
    ∧ (299 < r.StatusCode → r.StatusCode ≠ 404 → r.StatusCode ≠ 401 →
        downloadHttp job r d = .probeErr .connectErr)
    ∧ (∀ e : FetchErr, fetchInfo job r = .error e →
        downloadHttp job r d = .probeErr e
        ∧ fileCreatedIn (downloadHttp job r d) = false
        ∧ workersStartedIn (downloadHttp job r d) = 0) := by
  refine ⟨?_, ?_, ?_, ?_⟩
  · intro h
    simp [downloadHttp, fetchInfo, h]
  · intro h
    simp [downloadHttp, fetchInfo, h]
  · intro h h4 h1
    simp [downloadHttp, fetchInfo, h, h4, h1]
  · intro e he
    simp [downloadHttp, he, fileCreatedIn, workersStartedIn]

/-- Witness for C7 at a 404. -/
theorem c7_probe_failure_witness :
    downloadHttp (planJob 0 500000 4 false)
      { StatusCode := 404, acceptRanges := "", contentLength := none, suggestedName := "" }
      none = .probeErr .notFound :=
  ((c7_probe_failure (planJob 0 500000 4 false)
      { StatusCode := 404, acceptRanges := "", contentLength := none, suggestedName := "" }
      none).1) rfl

/-- C8: a successful HEAD status whose Content-Length is absent or
unparsable makes `fetchInfo` succeed with size 0 and `isSupportRange`
forced off — even when Accept-Ranges advertised "bytes" — and the planner
then falls back to a single worker. -/
theorem c8_unparsable_size (job : Job) (r : HeadResp)
    (hcl : r.contentLength = none) (hst : r.StatusCode ≤ 299) :
    ∃ j1 : Job, fetchInfo job r = .ok j1 ∧ j1.FileSize = 0
      ∧ j1.isSupportRange = false ∧ AvaiableTreads j1 = 1 := by
  have h4 : r.StatusCode ≠ 404 := by omega
  have h1 : r.StatusCode ≠ 401 := by omega
  have h2 : ¬(299 < r.StatusCode) := by omega
  refine ⟨{ (if r.acceptRanges == "bytes" then { job with isSupportRange := true } else job)
              with isSupportRange := false, FileSize := 0 }, ?_, rfl, rfl, ?_⟩
  · simp [fetchInfo, h4, h1, h2, hcl]
  · simp [AvaiableTreads]

/-- Witness for C8: status 200, Accept-Ranges "bytes", no parsable size. -/
theorem c8_unparsable_size_witness :
    ∃ j1 : Job,
      fetchInfo (planJob 0 500000 4 false)
        { StatusCode := 200, acceptRanges := "bytes", contentLength := none,
          suggestedName := "x.bin" } = .ok j1
      ∧ j1.FileSize = 0 ∧ j1.isSupportRange = false ∧ AvaiableTreads j1 = 1 :=
  c8_unparsable_size (planJob 0 500000 4 false)
    { StatusCode := 200, acceptRanges := "bytes", contentLength := none,
      suggestedName := "x.bin" } rfl (by decide)

/-- Unfolding: a ready cancellation signal returns immediately. -/
theorem workerLoop_cancel (c : Nat → Bool) (r : Nat → ChunkRes) (retry : Nat)
    (h : c retry = true) : workerLoop c r retry = .cancelled retry := by
  unfold workerLoop
  simp [h]

/-- Unfolding: a successful chunk download returns success. -/
theorem workerLoop_ok (c : Nat → Bool) (r : Nat → ChunkRes) (retry : Nat)
    (hc : c retry = false) (hr : r retry = .ok) :
    workerLoop c r retry = .success (retry + 1) := by
  unfold workerLoop
  simp [hc, hr]

/-- Unfolding: a failure with the retry budget exhausted is permanent. -/
theorem workerLoop_err_last (c : Nat → Bool) (r : Nat → ChunkRes) (retry e : Nat)
    (hc : c retry = false) (hr : r retry = .err e) (h3 : 3 ≤ retry) :
    workerLoop c r retry = .permFail e (retry + 1) := by
  unfold workerLoop
  simp [hc, hr, h3]

/-- Unfolding: a failure with budget left increments the counter and loops. -/
theorem workerLoop_err_step (c : Nat → Bool) (r : Nat → ChunkRes) (retry e : Nat)
    (hc : c retry = false) (hr : r retry = .err e) (h3 : retry < 3) :
    workerLoop c r retry = workerLoop c r (retry + 1) := by
  conv_lhs => unfold workerLoop
  simp [hc, hr]
  intro h
  exact absurd h (by omega)

theorem workerLoop_attempts_aux (c : Nat → Bool) (r : Nat → ChunkRes) :
    ∀ n retry, retry + n = 3 → (workerLoop c r retry).attempts ≤ 4 := by
  intro n
  induction n with
  | zero =>
    intro retry h
    rcases hc : c retry with hc' | hc'
    · rcases hr : r retry with _ | e
      · rw [workerLoop_ok c r retry hc hr]
        simp [WorkerOutcome.attempts]
        omega
      · rw [workerLoop_err_last c r retry e hc hr (by omega)]
        simp [WorkerOutcome.attempts]
        omega
    · rw [workerLoop_cancel c r retry hc]
      simp [WorkerOutcome.attempts]
      omega
  | succ k ih =>
    intro retry h
    rcases hc : c retry with hc' | hc'
    · rcases hr : r retry with _ | e
      · rw [workerLoop_ok c r retry hc hr]
        simp [WorkerOutcome.attempts]
        omega
      · rw [workerLoop_err_step c r retry e hc hr (by omega)]
        exact ih (retry + 1) (by omega)
    · rw [workerLoop_cancel c r retry hc]
      simp [WorkerOutcome.attempts]
      omega

theorem workerLoop_all_fail_aux (c : Nat → Bool) (r : Nat → ChunkRes) (e : Nat → Nat)
    (hcall : ∀ i, i ≤ 3 → c i = false) (hrall : ∀ i, i ≤ 3 → r i = .err (e i)) :
    ∀ n retry, retry + n = 3 → workerLoop c r retry = .permFail (e 3) 4 := by
  intro n
  induction n with
  | zero =>
    intro retry h
    have h3 : retry = 3 := by omega
    subst h3
    rw [workerLoop_err_last c r 3 (e 3) (hcall 3 (by omega)) (hrall 3 (by omega)) (by omega)]
  | succ k ih =>
    intro retry h
    rw [workerLoop_err_step c r retry (e retry) (hcall retry (by omega))
      (hrall retry (by omega)) (by omega)]
    exact ih (retry + 1) (by omega)

theorem workerLoop_cancelled_aux (c : Nat → Bool) (r : Nat → ChunkRes) (e : Nat → Nat)
    (k : Nat) (hk : k ≤ 3) (hpre : ∀ i, i < k → c i = false ∧ r i = .err (e i))
    (hck : c k = true) :
    ∀ n retry, retry + n = k → workerLoop c r retry = .cancelled k := by
  intro n
  induction n with
  | zero =>
    intro retry h
    have h0 : retry = k := by omega
    subst h0
    exact workerLoop_cancel c r retry hck
  | succ m ih =>
    intro retry h
    have hlt : retry < k := by omega
    rw [workerLoop_err_step c r retry (e retry) (hpre retry hlt).1 (hpre retry hlt).2
      (by omega)]
    exact ih (retry + 1) (by omega)

/-- C3: the worker retry loop (i) never makes more than 4 `downloadChunk`
attempts; (ii) when cancellation never fires and every attempt fails, it
makes exactly 4 attempts (1 + 3 retries), declares permanent failure with
the last attempt's error, records that error in the shared slice and trips
the shared cancellation; (iii) the cancellation signal is re-checked before
every attempt, and a signal already tripped before attempt `k + 1` aborts
the worker at once with only the `k` earlier attempts consumed; and (iv)
after the join barrier the job surfaces exactly the first recorded error. -/
theorem c3_retry_policy (cancelObs : Nat → Bool) (res : Nat → ChunkRes) (e : Nat → Nat) :
    (workerLoop cancelObs res 0).attempts ≤ 4
    ∧ ((∀ i, i ≤ 3 → cancelObs i = false) → (∀ i, i ≤ 3 → res i = .err (e i)) →
        workerLoop cancelObs res 0 = .permFail (e 3) 4
        ∧ (workerLoop cancelObs res 0).recordedErrs = [e 3]
        ∧ (workerLoop cancelObs res 0).tripsCancel = true)
    ∧ (∀ k, k ≤ 3 → (∀ i, i < k → cancelObs i = false ∧ res i = .err (e i)) →
        cancelObs k = true →
        workerLoop cancelObs res 0 = .cancelled k
        ∧ (workerLoop cancelObs res 0).attempts = k
        ∧ (workerLoop cancelObs res 0).tripsCancel = false)
    ∧ (∀ er ers, surfacedErr (er :: ers) = some er) := by
  refine ⟨workerLoop_attempts_aux cancelObs res 3 0 rfl, ?_, ?_, ?_⟩
  · intro hc hr
    have h := workerLoop_all_fail_aux cancelObs res e hc hr 3 0 rfl
    rw [h]
    exact ⟨rfl, rfl, rfl⟩
  · intro k hk hpre hck
    have h := workerLoop_cancelled_aux cancelObs res e k hk hpre hck k 0 (by omega)
    rw [h]
    exact ⟨rfl, rfl, rfl⟩
  · intro er ers
    rfl

/-- Witness for C3: an always-failing worker makes exactly 4 attempts and
fails with the 4th error; a worker whose token trips before its 3rd attempt
aborts with 2 attempts consumed. -/
theorem c3_retry_policy_witness :
    workerLoop (fun _ => false) (fun i => .err (10 + i)) 0 = .permFail 13 4
    ∧ workerLoop (fun i => i == 2) (fun i => .err (10 + i)) 0 = .cancelled 2 := by
  constructor
  · exact ((c3_retry_policy (fun _ => false) (fun i => .err (10 + i)) (fun i => 10 + i)).2.1
      (fun i _ => rfl) (fun i _ => rfl)).1
  · refine ((c3_retry_policy (fun i => i == 2) (fun i => .err (10 + i))
      (fun i => 10 + i)).2.2.1 2 (by omega) ?_ rfl).1
    intro i hi
    refine ⟨?_, rfl⟩
    simp
    omega

theorem createLoop_first_free (taken : String → Bool) (dir bwe ext : String) :
    ∀ n start fuel,
      taken (pathJoin dir (indexedName bwe ext (start + n))) = false →
      (∀ j, start ≤ j → j < start + n → taken (pathJoin dir (indexedName bwe ext j)) = true) →
      n < fuel →
      createLoop taken dir bwe ext start fuel = some (indexedName bwe ext (start + n)) := by
  intro n
  induction n with
  | zero =>
    intro start fuel hfree hmin hf
    cases fuel with
    | zero => omega
    | succ f =>
      simp only [Nat.add_zero] at hfree ⊢
      simp only [createLoop]
      rw [if_neg (by simp [hfree])]
  | succ k ih =>
    intro start fuel hfree hmin hf
    cases fuel with
    | zero => omega
    | succ f =>
      simp only [createLoop]
      rw [if_pos (hmin start (by omega) (by omega))]
      have h1 : start + 1 + k = start + (k + 1) := by omega
      have := ih (start + 1) f (by rw [h1]; exact hfree)
        (fun j hj1 hj2 => hmin j (by omega) (by omega)) (by omega)
      rw [this, h1]

/-- C10: with overwrite disabled and the resolved target name already on
disk, `createTargetFile` creates the first free name of the form
`base(i).ext`: the index starts at 1, is incremented by 1 per collision,
every smaller index ≥ 1 is still in use (so an index in use is never
reused), and the parenthesized index sits between the base name and the
extension.  `n + 1` is the first free index and `fuel` any bound larger
than the collisions scanned. -/
theorem c10_collision_name (taken : String → Bool) (dir pfx fileName : String)
    (n fuel : Nat)
    (htaken : taken (pathJoin dir (pfx ++ fileName)) = true)
    (hfree : taken (pathJoin dir (collisionBase pfx fileName (n + 1))) = false)
    (hmin : ∀ j, j < n + 1 → 1 ≤ j →
      taken (pathJoin dir (collisionBase pfx fileName j)) = true)
    (hfuel : n < fuel) :
    createTargetFileName taken false dir pfx fileName fuel
      = some (collisionBase pfx fileName (n + 1)) := by
  unfold createTargetFileName
  rw [if_neg (by simp)]
  simp only [pathJoin] at htaken ⊢
  rw [if_neg (by simp [htaken])]
  have h1 : 1 + n = n + 1 := by omega
  have := createLoop_first_free taken dir
    ((pfx ++ fileName).take ((pfx ++ fileName).length - (fileExt (pfx ++ fileName)).length))
    (fileExt (pfx ++ fileName)) n 1 fuel
    (by rw [h1]; exact hfree)
    (fun j hj1 hj2 => hmin j (by omega) (by omega)) hfuel
  rw [this, h1]
  rfl

/-- Witness for C10: directory `d` holding `a.txt` and `a(1).txt`; the
resolver picks `a(2).txt`. -/
theorem c10_collision_name_witness :
    createTargetFileName (fun s => s == "d/a.txt" || s == "d/a(1).txt") false "d" "" "a.txt" 3
      = some (collisionBase "" "a.txt" 2) :=
  c10_collision_name (fun s => s == "d/a.txt" || s == "d/a(1).txt") "d" "" "a.txt" 1 3
    (by decide) (by decide) (by decide) (by decide)

/-- C9 (code defect): the write coordination never produces a serialized
seek-then-write at all.  With the nil `_lck` every `Job` carries,
`downloadChunk` can never reach the `written` exit, and any call that
survives to the write section — request built, response received, status
206 — panics on the nil mutex instead of seeking and writing. -/
theorem c9_write_section_unreachable (job : Job) (env : ChunkEnv)
    (h : job._lck = none) :
    downloadChunk job env ≠ .written
    ∧ (env.reqOk = true → env.respOk = true → env.status = 206 →
        downloadChunk job env = .panicNilMutex) := by
  constructor
  · unfold downloadChunk
    rw [h]
    split_ifs <;> simp
  · intro h1 h2 h3
    unfold downloadChunk
    rw [h]
    simp [h1, h2, h3]

/-- Witness for C9: a freshly planned job and a well-behaved 206 response. -/
theorem c9_write_section_unreachable_witness :
    downloadChunk (planJob 2000000 500000 4 true)
        { reqOk := true, respOk := true, status := 206, seekOk := true, writeOk := true }
      ≠ .written
    ∧ ((true : Bool) = true → (true : Bool) = true → (206 : Nat) = 206 →
        downloadChunk (planJob 2000000 500000 4 true)
          { reqOk := true, respOk := true, status := 206, seekOk := true, writeOk := true }
          = .panicNilMutex) :=
  c9_write_section_unreachable (planJob 2000000 500000 4 true)
    { reqOk := true, respOk := true, status := 206, seekOk := true, writeOk := true } rfl

/-- C4 (code defect): the deadline is consulted exactly once, in the single
`select` of `Download`, whose timer has just been started; whenever that
select proceeds (`timerFired = false`, the case for every positive
timeout), the whole fetch phase runs with no further reference to the
deadline: the planner output and every worker outcome are invariant under
the configured `Timeout`, so an already-running transfer can never be
terminated by it. -/
theorem c4_timeout_checked_once (job : Job) (t1 t2 : Nat)
    (cancelObs : Nat → Nat → Bool) (res : Nat → Nat → ChunkRes) :
    downloadSelect false = .proceeded
    ∧ multiThreadOutcome (setTimeout job t1) cancelObs res
        = multiThreadOutcome (setTimeout job t2) cancelObs res
    ∧ multiThreadRanges (setTimeout job t1).FileSize
        (AvaiableTreads (setTimeout job t1)).toNat
        = multiThreadRanges (setTimeout job t2).FileSize
          (AvaiableTreads (setTimeout job t2)).toNat :=
  ⟨rfl, rfl, rfl⟩

theorem ceilDiv_mul_le (n t : Nat) (ht : 0 < t) : ceilDiv n t * t ≤ n + t - 1 := by
  unfold ceilDiv
  have h1 := Nat.div_add_mod (n + t - 1) t
  have h2 := Nat.mod_lt (n + t - 1) ht
  have e : (n + t - 1) / t * t = t * ((n + t - 1) / t) := Nat.mul_comm _ _
  omega

theorem le_ceilDiv_mul (n t : Nat) (ht : 0 < t) : n ≤ ceilDiv n t * t := by
  unfold ceilDiv
  have h1 := Nat.div_add_mod (n + t - 1) t
  have h2 := Nat.mod_lt (n + t - 1) ht
  have e : (n + t - 1) / t * t = t * ((n + t - 1) / t) := Nat.mul_comm _ _
  omega

theorem ceilDiv_pos (n t : Nat) (hn : 0 < n) (ht : 0 < t) : 0 < ceilDiv n t := by
  rcases Nat.eq_zero_or_pos (ceilDiv n t) with h | h
  · have := le_ceilDiv_mul n t ht
    rw [h] at this
    omega
  · exact h

/-- When the file holds at least `t * (t - 1) + 1` bytes, the first `t - 1`
planned chunks of ceiling size stay strictly inside the file: the last
chunk's start is at most the last byte. -/
theorem partition_key (n t : Nat) (ht : 0 < t) (h : t * (t - 1) + 1 ≤ n) :
    (t - 1) * ceilDiv n t ≤ n - 1 := by
  obtain ⟨s, rfl⟩ : ∃ s, t = s + 1 := ⟨t - 1, by omega⟩
  have h1 : ceilDiv n (s + 1) * (s + 1) ≤ n + s := by
    have := ceilDiv_mul_le n (s + 1) ht
    omega
  have h2 : s + 1 ≤ ceilDiv n (s + 1) := by
    unfold ceilDiv
    rw [Nat.le_div_iff_mul_le ht]
    have e : (s + 1) * (s + 1) = (s + 1) * s + (s + 1) := by ring
    have e2 : (s + 1) * (s + 1 - 1) = (s + 1) * s := by
      rw [Nat.add_sub_cancel]
    omega
  have e1 : ceilDiv n (s + 1) * (s + 1) = ceilDiv n (s + 1) * s + ceilDiv n (s + 1) := by
    ring
  have e2 : (s + 1 - 1) * ceilDiv n (s + 1) = ceilDiv n (s + 1) * s := by
    rw [Nat.add_sub_cancel, Nat.mul_comm]
  have e3 : (s + 1) * (s + 1 - 1) = (s + 1) * s := by
    rw [Nat.add_sub_cancel]
  omega

theorem multiThreadRanges_eq (n t : Nat) (ht : 0 < t) (hn : 0 < n) (hU : n < U64)
    (hkey : (t - 1) * ceilDiv n t ≤ n - 1) :
    multiThreadRanges n t = (List.range t).map (fun i =>
      (i * ceilDiv n t, if i = t - 1 then n - 1 else (i + 1) * ceilDiv n t - 1)) := by
  unfold multiThreadRanges
  apply List.map_congr_left
  intro i hi
  rw [List.mem_range] at hi
  generalize hgen : ceilDiv n t = c at hkey ⊢
  have hcpos : 0 < c := by
    rw [← hgen]
    exact ceilDiv_pos n t hn ht
  have hU1 : 0 < U64 := by decide
  have hic : i * c ≤ (t - 1) * c := Nat.mul_le_mul_right c (by omega)
  have hstart : i * c < U64 := by omega
  by_cases hlast : i = t - 1
  · simp only [if_pos hlast, Nat.mod_eq_of_lt hstart]
    have e : n + (U64 - 1) = (n - 1) + U64 := by omega
    rw [e, Nat.add_mod_right, Nat.mod_eq_of_lt (by omega)]
  · simp only [if_neg hlast, Nat.mod_eq_of_lt hstart]
    have hi1 : i + 1 ≤ t - 1 := by omega
    have h2 : (i + 1) * c ≤ (t - 1) * c := Nat.mul_le_mul_right c hi1
    have h3 : 0 < (i + 1) * c := Nat.mul_pos (by omega) hcpos
    have e4 : (i + 1) * c = i * c + c := by ring
    have e : i * c + c + (U64 - 1) = ((i + 1) * c - 1) + U64 := by omega
    rw [e, Nat.add_mod_right, Nat.mod_eq_of_lt (by omega)]

theorem planned_contiguous (n t c : Nat) (ht : 0 < t) (hc : 0 < c) :
    RangesContiguous ((List.range t).map (fun i =>
      ((i * c : Nat), if i = t - 1 then n - 1 else (i + 1) * c - 1))) := by
  obtain ⟨s, rfl⟩ : ∃ s, t = s + 1 := ⟨t - 1, by omega⟩
  rw [RangesContiguous, List.chain'_map, List.chain'_range_succ]
  intro m hm
  simp only [Nat.succ_eq_add_one]
  rw [if_neg (by omega : ¬ m = s + 1 - 1)]
  have h1 : 0 < (m + 1) * c := Nat.mul_pos (by omega) hc
  omega

theorem planned_disjoint (n t c : Nat) (hc : 0 < c) :
    RangesDisjoint ((List.range t).map (fun i =>
      ((i * c : Nat), if i = t - 1 then n - 1 else (i + 1) * c - 1))) := by
  rw [RangesDisjoint, List.pairwise_iff_getElem]
  intro i j hi hj hij
  simp only [List.length_map, List.length_range] at hi hj
  simp only [List.getElem_map, List.getElem_range]
  left
  rw [if_neg (by omega : ¬ i = t - 1)]
  have h1 : (i + 1) * c ≤ j * c := Nat.mul_le_mul_right c (by omega)
  have h2 : 0 < (i + 1) * c := Nat.mul_pos (by omega) hc
  omega

theorem planned_cover (n t c : Nat) (ht : 0 < t) (hc : 0 < c) (hn : 0 < n)
    (hkey : (t - 1) * c ≤ n - 1) :
    RangesCover n ((List.range t).map (fun i =>
      ((i * c : Nat), if i = t - 1 then n - 1 else (i + 1) * c - 1))) := by
  intro b
  constructor
  · rintro ⟨r, hr, hb1, hb2⟩
    rw [List.mem_map] at hr
    obtain ⟨i, hi, rfl⟩ := hr
    rw [List.mem_range] at hi
    by_cases hlast : i = t - 1
    · rw [if_pos hlast] at hb2
      omega
    · rw [if_neg hlast] at hb2
      have h2 : (i + 1) * c ≤ (t - 1) * c := Nat.mul_le_mul_right c (by omega)
      omega
  · intro hb
    by_cases hcase : b < (t - 1) * c
    · have hilt : b / c < t - 1 := by
        rw [Nat.div_lt_iff_lt_mul hc]
        exact hcase
      refine ⟨(b / c * c, if b / c = t - 1 then n - 1 else (b / c + 1) * c - 1),
        ?_, Nat.div_mul_le_self b c, ?_⟩
      · rw [List.mem_map]
        exact ⟨b / c, by rw [List.mem_range]; omega, rfl⟩
      · rw [if_neg (by omega : ¬ b / c = t - 1)]
        have h1 := Nat.div_add_mod b c
        have h2 := Nat.mod_lt b hc
        have e : (b / c + 1) * c = c * (b / c) + c := by ring
        omega
    · refine ⟨((t - 1) * c, if t - 1 = t - 1 then n - 1 else (t - 1 + 1) * c - 1),
        ?_, by omega, ?_⟩
      · rw [List.mem_map]
        exact ⟨t - 1, by rw [List.mem_range]; omega, rfl⟩
      · rw [if_pos rfl]
        omega

theorem planned_lastEnd (n t c : Nat) (ht : 0 < t) :
    ((List.range t).map (fun i =>
      ((i * c : Nat), if i = t - 1 then n - 1 else (i + 1) * c - 1))).getLast?
      = some ((t - 1) * c, n - 1) := by
  obtain ⟨s, rfl⟩ : ∃ s, t = s + 1 := ⟨t - 1, by omega⟩
  rw [List.range_succ, List.map_append]
  simp [List.getLast?_concat]

theorem ceilDiv_ge_succ (n m k : Nat) (hm : 0 < m) (h : k + 1 ≤ ceilDiv n m) :
    m * k + 1 ≤ n := by
  unfold ceilDiv at h
  rw [Nat.le_div_iff_mul_le hm] at h
  have e : (k + 1) * m = m * k + m := by ring
  omega

/-- The planner's worker count is always between 1 and the ceiling. -/
theorem avaiableTreads_bounds (n m : Nat) (maxW : Int) (sr : Bool)
    (h0 : 0 < m) (h1 : 1 ≤ maxW) :
    1 ≤ AvaiableTreads (planJob n m maxW sr)
    ∧ AvaiableTreads (planJob n m maxW sr) ≤ maxW := by
  simp only [AvaiableTreads, planJob]
  split_ifs <;> constructor <;> omega

/-- Under the amended hypotheses the worker count `T` satisfies
`T * (T - 1) + 1 ≤ n`, the condition that keeps the ceiling-sized chunks
inside the file. -/
theorem avaiableTreads_key (n m : Nat) (maxW : Int) (sr : Bool)
    (h0 : 0 < m) (h1 : 1 ≤ maxW) (h2 : 0 < n) (hmw : maxW ≤ (m : Int)) :
    (AvaiableTreads (planJob n m maxW sr)).toNat
      * ((AvaiableTreads (planJob n m maxW sr)).toNat - 1) + 1 ≤ n := by
  simp only [AvaiableTreads, planJob]
  split_ifs with hsr hnm hm0 hgt hlt
  · simp
    omega
  · simp
    omega
  · simp
    omega
  · -- clamped to MaxThreads: w := maxW.toNat, and ceilDiv n m > maxW
    have hw1 : 1 ≤ maxW.toNat := by omega
    have hwm : maxW.toNat ≤ m := by omega
    have hcd : maxW.toNat + 1 ≤ ceilDiv n m := by omega
    have hn1 := ceilDiv_ge_succ n m maxW.toNat h0 hcd
    have hmul : maxW.toNat * (maxW.toNat - 1) ≤ maxW.toNat * m :=
      Nat.mul_le_mul_left maxW.toNat (by omega)
    have e : maxW.toNat * m = m * maxW.toNat := Nat.mul_comm _ _
    omega
  · simp
    omega
  · -- worker count is ceilDiv n m itself, and it is at most maxW ≤ m
    have hcd1 : 1 ≤ ceilDiv n m := by omega
    have hcdm : ceilDiv n m ≤ m := by omega
    have hn1 := ceilDiv_ge_succ n m (ceilDiv n m - 1) h0 (by omega)
    have hmul : ceilDiv n m * (ceilDiv n m - 1) ≤ m * (ceilDiv n m - 1) :=
      Nat.mul_le_mul_right (ceilDiv n m - 1) hcdm
    rw [Int.toNat_natCast]
    omega

/-- C1 amended: for every `totalSize ≥ 1`, `minChunkSize > 0` and
`maxWorkers ≥ 1` with `maxWorkers ≤ minChunkSize` (the factory defaults,
4 and 500 KiB, satisfy this comfortably), the planner's worker count lies
in `[1, maxWorkers]` and the chunk loop's ranges are contiguous,
non-overlapping, cover exactly `[0, totalSize-1]`, and end at
`totalSize - 1`.  (Without the extra hypothesis the exact-cover part
fails; see the counterexample.) -/
theorem c1_range_plan (n m : Nat) (maxW : Int) (sr : Bool)
    (h0 : 0 < m) (h1 : 1 ≤ maxW) (h2 : 0 < n) (hU : n < U64) (hmw : maxW ≤ (m : Int)) :
    1 ≤ AvaiableTreads (planJob n m maxW sr)
    ∧ AvaiableTreads (planJob n m maxW sr) ≤ maxW
    ∧ RangesContiguous (multiThreadRanges n (AvaiableTreads (planJob n m maxW sr)).toNat)
    ∧ RangesDisjoint (multiThreadRanges n (AvaiableTreads (planJob n m maxW sr)).toNat)
    ∧ RangesCover n (multiThreadRanges n (AvaiableTreads (planJob n m maxW sr)).toNat)
    ∧ (∃ r : Nat × Nat,
        (multiThreadRanges n (AvaiableTreads (planJob n m maxW sr)).toNat).getLast?
          = some r
        ∧ r.2 = n - 1) := by
  obtain ⟨hlo, hhi⟩ := avaiableTreads_bounds n m maxW sr h0 h1
  have hkeyN := avaiableTreads_key n m maxW sr h0 h1 h2 hmw
  have hTpos : 0 < (AvaiableTreads (planJob n m maxW sr)).toNat := by omega
  generalize hgen : (AvaiableTreads (planJob n m maxW sr)).toNat = T at hkeyN hTpos ⊢
  have hc := ceilDiv_pos n T h2 hTpos
  have hkey := partition_key n T hTpos hkeyN
  have heq := multiThreadRanges_eq n T hTpos h2 hU hkey
  rw [heq]
  exact ⟨hlo, hhi, planned_contiguous n T (ceilDiv n T) hTpos hc,
    planned_disjoint n T (ceilDiv n T) hc,
    planned_cover n T (ceilDiv n T) hTpos hc h2 hkey,
    ⟨((T - 1) * ceilDiv n T, n - 1), planned_lastEnd n T (ceilDiv n T) hTpos, rfl⟩⟩

/-- Witness for C1 at the spec's end-to-end scenario A: 2,000,000 bytes,
500,000-byte minimum chunks, ceiling 4, range-capable. -/
theorem c1_range_plan_witness :
    1 ≤ AvaiableTreads (planJob 2000000 500000 4 true)
    ∧ AvaiableTreads (planJob 2000000 500000 4 true) ≤ 4
    ∧ RangesContiguous
        (multiThreadRanges 2000000 (AvaiableTreads (planJob 2000000 500000 4 true)).toNat)
    ∧ RangesDisjoint
        (multiThreadRanges 2000000 (AvaiableTreads (planJob 2000000 500000 4 true)).toNat)
    ∧ RangesCover 2000000
        (multiThreadRanges 2000000 (AvaiableTreads (planJob 2000000 500000 4 true)).toNat)
    ∧ (∃ r : Nat × Nat,
        (multiThreadRanges 2000000
          (AvaiableTreads (planJob 2000000 500000 4 true)).toNat).getLast? = some r
        ∧ r.2 = 2000000 - 1) :=
  c1_range_plan 2000000 500000 4 true (by decide) (by decide) (by decide) (by decide)
    (by decide)

/-- C1 counterexample: at `totalSize = 5`, `minChunkSize = 1`,
`maxWorkers = 4`, range-capable, the planner picks 4 workers and the chunk
loop emits `[(0,1), (2,3), (4,5), (6,4)]`: the third range reaches byte 5,
outside the file extent `[0,4]`, so the ranges do not cover exactly
`[0, totalSize-1]` and the claim as stated fails. -/
theorem c1_exact_cover_fails :
    AvaiableTreads (planJob 5 1 4 true) = 4
    ∧ multiThreadRanges 5 (AvaiableTreads (planJob 5 1 4 true)).toNat
        = [(0, 1), (2, 3), (4, 5), (6, 4)]
    ∧ ¬ RangesCover 5 (multiThreadRanges 5 (AvaiableTreads (planJob 5 1 4 true)).toNat) := by
  refine ⟨by decide, by decide, ?_⟩
  intro hcov
  have h5 := (hcov 5).mp ⟨(4, 5), by decide, by decide⟩
  omega

end Weblink
